import Mathlib

/-!
Shallow embedding of `src/app.py` (intent-matching chatbot).

The module-level Python state (`intents`, `pattern_to_intent`, `corpus`,
`vectorizer`/`X`) is modelled by the structure `St`.  Python values that can
appear in that state (parsed JSON plus compiled regex objects) are modelled
by `PyVal`; Python exceptions are modelled by `PyErr` and `Except`.

External libraries are abstracted by function parameters:
* `reValid pat` — whether `re.compile(pat, re.IGNORECASE)` succeeds
  (`re.error` is the only exception `_compile_regex` catches);
* `reSearch pat text` — whether the compiled pattern finds a hit in `text`;
* `fuzzScore text choice` — `fuzz.token_set_ratio(text, choice)`
  (`process.extractOne` keeps the first choice attaining the maximum);
* `cosSimC corpus text i` — cosine similarity of the TF-IDF vector of `text`
  against row `i` of the matrix trained on `corpus` (`argmax` picks the
  first index attaining the maximum).
-/

namespace KampBot

/-- Python runtime values reachable in the bot's global state: parsed JSON
values plus compiled regex objects (a compiled regex is identified by its
pattern string). -/
inductive PyVal where
  | str (s : String)
  | int (n : Int)
  | bool (b : Bool)
  | none
  | list (xs : List PyVal)
  | dict (kvs : List (String × PyVal))
  | rx (pat : String)

mutual

/-- Structural equality on `PyVal`, modelling Python `==` on these values. -/
def PyVal.beqFn : PyVal → PyVal → Bool
  | .str a, .str b => a == b
  | .int a, .int b => a == b
  | .bool a, .bool b => a == b
  | .none, .none => true
  | .rx a, .rx b => a == b
  | .list xs, .list ys => PyVal.beqListFn xs ys
  | .dict xs, .dict ys => PyVal.beqDictFn xs ys
  | _, _ => false

/-- Elementwise equality of Python lists. -/
def PyVal.beqListFn : List PyVal → List PyVal → Bool
  | [], [] => true
  | a :: as, b :: bs => PyVal.beqFn a b && PyVal.beqListFn as bs
  | _, _ => false

/-- Entrywise equality of Python dicts (as ordered association lists). -/
def PyVal.beqDictFn : List (String × PyVal) → List (String × PyVal) → Bool
  | [], [] => true
  | (k, a) :: as, (k2, b) :: bs => k == k2 && PyVal.beqFn a b && PyVal.beqDictFn as bs
  | _, _ => false

end

instance : BEq PyVal := ⟨PyVal.beqFn⟩

mutual

theorem PyVal.beqFn_self : ∀ x : PyVal, PyVal.beqFn x x = true
  | .str s => by simp [PyVal.beqFn]
  | .int n => by simp [PyVal.beqFn]
  | .bool b => by simp [PyVal.beqFn]
  | .none => rfl
  | .rx p => by simp [PyVal.beqFn]
  | .list xs => by simp [PyVal.beqFn, PyVal.beqListFn_self xs]
  | .dict xs => by simp [PyVal.beqFn, PyVal.beqDictFn_self xs]

theorem PyVal.beqListFn_self : ∀ xs : List PyVal, PyVal.beqListFn xs xs = true
  | [] => rfl
  | a :: as => by simp [PyVal.beqListFn, PyVal.beqFn_self a, PyVal.beqListFn_self as]

theorem PyVal.beqDictFn_self : ∀ xs : List (String × PyVal), PyVal.beqDictFn xs xs = true
  | [] => rfl
  | (k, a) :: as => by simp [PyVal.beqDictFn, PyVal.beqFn_self a, PyVal.beqDictFn_self as]

end

theorem PyVal.beq_self (x : PyVal) : (x == x) = true := PyVal.beqFn_self x

/-- Python exceptions that the modelled code can raise. -/
inductive PyErr where
  | typeError
  | attributeError
  | indexError
  | valueError
deriving DecidableEq

/-- `d.get(k, default)` on a Python dict (modelled as an association list
with unique keys, as produced by `json.load`). -/
def objGetD (kvs : List (String × PyVal)) (k : String) (d : PyVal) : PyVal :=
  match kvs.find? (fun kv => kv.1 == k) with
  | some kv => kv.2
  | Option.none => d

/-- `k in d` on a Python dict. -/
def objHas (kvs : List (String × PyVal)) (k : String) : Bool :=
  kvs.any (fun kv => kv.1 == k)

/-- `d[k] = v` on a Python dict: overwrite in place, or append a new key. -/
def objSet (kvs : List (String × PyVal)) (k : String) (v : PyVal) :
    List (String × PyVal) :=
  match kvs with
  | [] => [(k, v)]
  | kv :: rest => if kv.1 == k then (k, v) :: rest else kv :: objSet rest k v

/-- Python iteration `for x in v`: lists yield elements, dicts yield keys,
strings yield one-character strings; other values raise `TypeError`. -/
def pyIter : PyVal → Except PyErr (List PyVal)
  | .list xs => .ok xs
  | .dict kvs => .ok (kvs.map (fun kv => .str kv.1))
  | .str s => .ok (s.data.map (fun c => .str (String.mk [c])))
  | _ => .error .typeError

/-- Python `str.lower()` (ASCII model). -/
def pyLower (s : String) : String := String.mk (s.data.map Char.toLower)

/-- Drop whitespace from both ends of a character list. -/
def stripChars (l : List Char) : List Char :=
  ((l.dropWhile Char.isWhitespace).reverse.dropWhile Char.isWhitespace).reverse

/-- Python `str.strip()`. -/
def pyStrip (s : String) : String := String.mk (stripChars s.data)

/-- Contiguous-substring test on character lists (`needle in hay`). -/
def containsSub : List Char → List Char → Bool
  | [], needle => needle.isPrefixOf []
  | c :: t, needle => needle.isPrefixOf (c :: t) || containsSub t needle

/-- Python `needle in hay` on strings. -/
def pyIn (needle hay : String) : Bool := containsSub hay.data needle.data

/-! ## Loading (`load_intents`, lines 29–76 of `src/app.py`) -/

/-- `_compile_regex` (lines 22–27): compile a regex pattern, returning
`None` when compilation fails with `re.error` (the only caught exception). -/
def compile_regex (reValid : String → Bool) (pat : String) : PyVal :=
  if reValid pat then .rx pat else .none

/-- `_compile_regex(p)` applied to an arbitrary list element `p`:
`re.compile` raises `TypeError` on a non-string argument, and
`_compile_regex` does not catch `TypeError`. -/
def compileRegexItem (reValid : String → Bool) : PyVal → Except PyErr PyVal
  | .str s => .ok (compile_regex reValid s)
  | _ => .error .typeError

/-- `[r for r in (_compile_regex(p) for p in rgx) if r is not None]`. -/
def compileRegexList (reValid : String → Bool) : List PyVal → Except PyErr (List PyVal)
  | [] => .ok []
  | p :: ps =>
    match compileRegexItem reValid p with
    | .error e => .error e
    | .ok r =>
      match compileRegexList reValid ps with
      | .error e => .error e
      | .ok rest =>
        .ok (match r with
             | .none => rest
             | r => r :: rest)

/-- One iteration of the regex pre-compilation loop (lines 48–56): read
`it.get("regex")`, store `_regex` (single string) or `_regex_list` (list),
else `_regex = None`.  A non-dict `it` raises `AttributeError` at
`it.get`. -/
def processIntent (reValid : String → Bool) : PyVal → Except PyErr PyVal
  | .dict kvs =>
    match objGetD kvs "regex" PyVal.none with
    | .str s => .ok (.dict (objSet kvs "_regex" (compile_regex reValid s)))
    | .list rs =>
      match compileRegexList reValid rs with
      | .error e => .error e
      | .ok cs => .ok (.dict (objSet kvs "_regex_list" (.list cs)))
    | _ => .ok (.dict (objSet kvs "_regex" PyVal.none))
  | _ => .error .attributeError

/-- The regex loop over a list of intents.  On an error at element `k`,
elements before `k` have already been mutated in place and the rest are
untouched; the (partially mutated) list plus the error is returned. -/
def processIntents (reValid : String → Bool) : List PyVal → List PyVal × Option PyErr
  | [] => ([], Option.none)
  | it :: its =>
    match processIntent reValid it with
    | .error e => (it :: its, some e)
    | .ok it2 =>
      let r := processIntents reValid its
      (it2 :: r.1, r.2)

/-- The regex loop applied to the global `intents` value: iterating a dict
yields its keys and a string yields its characters (both one-character-away
from `AttributeError` at `it.get` unless empty); non-iterables raise
`TypeError`. -/
def regexPhase (reValid : String → Bool) : PyVal → PyVal × Option PyErr
  | .list xs =>
    let r := processIntents reValid xs
    (.list r.1, r.2)
  | .dict kvs => (.dict kvs, if kvs.isEmpty then Option.none else some .attributeError)
  | .str s => (.str s, if s.data.isEmpty then Option.none else some .attributeError)
  | v => (v, some .typeError)

/-- One iteration of the corpus-building loop (lines 61–66): iterate
`it.get("patterns", [])`, skip non-strings, and collect
`(p.lower(), it.get("intent"))` pairs. -/
def corpusOfIntent : PyVal → Except PyErr (List (String × PyVal))
  | .dict kvs =>
    match pyIter (objGetD kvs "patterns" (.list [])) with
    | .error e => .error e
    | .ok ps =>
      .ok (ps.filterMap (fun p =>
        match p with
        | .str s => some (pyLower s, objGetD kvs "intent" PyVal.none)
        | _ => Option.none))
  | _ => .error .attributeError

/-- The corpus loop over a list of intents, returning the pairs appended
before any error together with the error. -/
def corpusPhaseList : List PyVal → List (String × PyVal) × Option PyErr
  | [] => ([], Option.none)
  | it :: its =>
    match corpusOfIntent it with
    | .error e => ([], some e)
    | .ok pairs =>
      let r := corpusPhaseList its
      (pairs ++ r.1, r.2)

/-- The corpus loop applied to the global `intents` value. -/
def corpusPhase : PyVal → List (String × PyVal) × Option PyErr
  | .list xs => corpusPhaseList xs
  | .dict kvs => ([], if kvs.isEmpty then Option.none else some .attributeError)
  | .str s => ([], if s.data.isEmpty then Option.none else some .attributeError)
  | _ => ([], some .typeError)

/-- The module-level mutable state: `intents`, `pattern_to_intent`,
`corpus`, and the TF-IDF model.  `tfidfCorpus = some c` models
`X`/`vectorizer` holding a matrix trained on corpus `c`; `Option.none`
models `X is None`. -/
structure St where
  intents : PyVal
  patternToIntent : List PyVal
  corpus : List String
  tfidfCorpus : Option (List String)

/-- Lines 42–45: `intents = raw["intents"]` when `raw` is a dict with an
`"intents"` key, else `intents = raw`. -/
def pickIntents (raw : PyVal) : PyVal :=
  match raw with
  | .dict kvs => if objHas kvs "intents" then objGetD kvs "intents" PyVal.none else PyVal.dict kvs
  | v => v

/-- `load_intents` (lines 29–76), starting after `json.load` succeeded with
value `raw`.  The global assignments happen in program order, so an
exception part-way leaves the earlier assignments in place: the returned
state is the state as mutated up to the exception, paired with the
exception (if any). -/
def load_intents (reValid : String → Bool) (st : St) (raw : PyVal) : St × Option PyErr :=
  match regexPhase reValid (pickIntents raw) with
  | (v, some e) => ({ st with intents := v }, some e)
  | (v, Option.none) =>
    match corpusPhase v with
    | (pairs, some e) =>
      ({ st with
          intents := v
          corpus := pairs.map Prod.fst
          patternToIntent := pairs.map Prod.snd }, some e)
    | (pairs, Option.none) =>
      ({ st with
          intents := v
          corpus := pairs.map Prod.fst
          patternToIntent := pairs.map Prod.snd
          tfidfCorpus :=
            if (pairs.map Prod.fst).isEmpty then Option.none
            else some (pairs.map Prod.fst) },
       Option.none)

/-! ## The cascade matcher (`find_intent`, lines 78–125 of `src/app.py`) -/

/-- Python truthiness of the modelled values. -/
def PyVal.truthy : PyVal → Bool
  | .none => false
  | .bool b => b
  | .int n => n != 0
  | .str s => !s.data.isEmpty
  | .list xs => !xs.isEmpty
  | .dict kvs => !kvs.isEmpty
  | .rx _ => true

/-- `(user_text or "").lower().strip()` (line 79). -/
def normalizeText (userText : Option String) : String :=
  pyStrip (pyLower (userText.getD ""))

/-- Stage 1 (lines 83–87): first intent, in stored order, one of whose
string patterns is contained in the normalized text. -/
def stage1 (text : String) : List PyVal → Except PyErr (Option PyVal)
  | [] => .ok Option.none
  | it :: its =>
    match it with
    | .dict kvs =>
      match pyIter (objGetD kvs "patterns" (.list [])) with
      | .error e => .error e
      | .ok ps =>
        if ps.any (fun p => match p with
                   | .str s => pyIn (pyLower s) text
                   | _ => false)
        then .ok (some (.dict kvs))
        else stage1 text its
    | _ => .error .attributeError

/-- `cre.search(text)` on a value expected to be a compiled regex; Python
raises `AttributeError` when it is not one. -/
def rxSearch (reSearch : String → String → Bool) (v : PyVal) (text : String) :
    Except PyErr Bool :=
  match v with
  | .rx p => .ok (reSearch p text)
  | _ => .error .attributeError

/-- `for cre2 in ...: if cre2.search(text): ...` — first hit wins. -/
def anyRxSearch (reSearch : String → String → Bool) (text : String) :
    List PyVal → Except PyErr Bool
  | [] => .ok false
  | c :: cs =>
    match rxSearch reSearch c text with
    | .error e => .error e
    | .ok true => .ok true
    | .ok false => anyRxSearch reSearch text cs

/-- Stage 2 (lines 89–98): first intent whose single compiled regex
(`_regex`, if truthy) or any regex in `_regex_list` matches. -/
def stage2 (reSearch : String → String → Bool) (text : String) :
    List PyVal → Except PyErr (Option PyVal)
  | [] => .ok Option.none
  | it :: its =>
    match it with
    | .dict kvs =>
      let cre := objGetD kvs "_regex" PyVal.none
      match (if cre.truthy then rxSearch reSearch cre text else .ok false) with
      | .error e => .error e
      | .ok true => .ok (some (.dict kvs))
      | .ok false =>
        let lst := objGetD kvs "_regex_list" (.list [])
        match pyIter (if lst.truthy then lst else .list []) with
        | .error e => .error e
        | .ok cres =>
          match anyRxSearch reSearch text cres with
          | .error e => .error e
          | .ok true => .ok (some (.dict kvs))
          | .ok false => stage2 reSearch text its
    | _ => .error .attributeError

/-- `all_patterns = [p for it in intents for p in it.get("patterns", [])
if isinstance(p, str)]` (line 101) — original casing, no lower-casing. -/
def allPatternsOf : List PyVal → Except PyErr (List String)
  | [] => .ok []
  | it :: its =>
    match it with
    | .dict kvs =>
      match pyIter (objGetD kvs "patterns" (.list [])) with
      | .error e => .error e
      | .ok ps =>
        match allPatternsOf its with
        | .error e => .error e
        | .ok rest =>
          .ok ((ps.filterMap (fun p => match p with
                | .str s => some s
                | _ => Option.none)) ++ rest)
    | _ => .error .attributeError

/-- First index attaining the maximum of a score list, together with that
maximum.  Models both `rapidfuzz.process.extractOne` (which keeps the
first choice whose score is strictly greater than the best so far) and
`numpy.argmax` (first occurrence of the maximum). -/
def extractBest : List ℚ → Nat × ℚ
  | [] => (0, 0)
  | [x] => (0, x)
  | x :: y :: ys =>
    let r := extractBest (y :: ys)
    if x < r.2 then (r.1 + 1, r.2) else (0, x)

/-- `xs[i]` on a Python list (non-negative index). -/
def pyIndex (xs : List PyVal) (i : Nat) : Except PyErr PyVal :=
  match xs.get? i with
  | some v => .ok v
  | Option.none => .error .indexError

/-- The name-resolution loop of stages 3 and 4 (lines 109–111, 121–123):
first intent, in stored order, with `it.get("intent") == intent_name`;
falling off the loop yields no result (execution continues). -/
def resolveIntent (intentName : PyVal) : List PyVal → Except PyErr (Option PyVal)
  | [] => .ok Option.none
  | it :: its =>
    match it with
    | .dict kvs =>
      if objGetD kvs "intent" PyVal.none == intentName
      then .ok (some (.dict kvs))
      else resolveIntent intentName its
    | _ => .error .attributeError

/-- Stage 3 (lines 100–111): fuzzy match over `all_patterns`; on a score
at or above the threshold, resolve `pattern_to_intent[idx]` by name. -/
def stage3 (fuzzScore : String → String → ℚ) (st : St) (its : List PyVal)
    (text : String) (fuzzyThreshold : ℚ) : Except PyErr (Option PyVal) :=
  match allPatternsOf its with
  | .error e => .error e
  | .ok allPats =>
    if allPats.isEmpty then .ok Option.none
    else
      let best := extractBest (allPats.map (fun p => fuzzScore text p))
      if fuzzyThreshold ≤ best.2 then
        match pyIndex st.patternToIntent best.1 with
        | .error e => .error e
        | .ok intentName => resolveIntent intentName its
      else .ok Option.none

/-- Stage 4 (lines 113–123): TF-IDF cosine similarity over the trained
corpus; on a best similarity at or above the threshold, resolve
`pattern_to_intent[best_idx]` by name.  `numpy.argmax` raises
`ValueError` on an empty similarity vector. -/
def stage4 (cosSimC : List String → String → Nat → ℚ) (st : St) (its : List PyVal)
    (text : String) (tfidfThreshold : ℚ) : Except PyErr (Option PyVal) :=
  match st.tfidfCorpus with
  | Option.none => .ok Option.none
  | some tc =>
    if tc.isEmpty then .error .valueError
    else
      let sims := (List.range tc.length).map (cosSimC tc text)
      let best := extractBest sims
      if tfidfThreshold ≤ best.2 then
        match pyIndex st.patternToIntent best.1 with
        | .error e => .error e
        | .ok intentName => resolveIntent intentName its
      else .ok Option.none

/-- Default fuzzy threshold (line 78: `fuzzy_threshold=70`). -/
def fuzzyThresholdDefault : ℚ := 70

/-- Default semantic threshold (line 78: `tfidf_threshold=0.35`). -/
def tfidfThresholdDefault : ℚ := 35 / 100

/-- `find_intent` (lines 78–125): normalize, return `None` on empty text,
then run the four stages in order, first success winning. -/
def find_intent (reSearch : String → String → Bool)
    (fuzzScore : String → String → ℚ) (cosSimC : List String → String → Nat → ℚ)
    (st : St) (userText : Option String) (fuzzyThreshold tfidfThreshold : ℚ) :
    Except PyErr (Option PyVal) :=
  if (normalizeText userText).data.isEmpty then .ok Option.none
  else
    match pyIter st.intents with
    | .error e => .error e
    | .ok its =>
      match stage1 (normalizeText userText) its with
      | .error e => .error e
      | .ok (some it) => .ok (some it)
      | .ok Option.none =>
        match stage2 reSearch (normalizeText userText) its with
        | .error e => .error e
        | .ok (some it) => .ok (some it)
        | .ok Option.none =>
          match stage3 fuzzScore st its (normalizeText userText) fuzzyThreshold with
          | .error e => .error e
          | .ok (some it) => .ok (some it)
          | .ok Option.none =>
            stage4 cosSimC st its (normalizeText userText) tfidfThreshold

/-! ## Predicates used to state the claims -/

/-- An intent record in a servable state: a dict whose `"patterns"` value
is iterable (this is what a successful load guarantees for every stored
intent). -/
def goodIntent : PyVal → Bool
  | .dict kvs =>
    match pyIter (objGetD kvs "patterns" (.list [])) with
    | .ok _ => true
    | .error _ => false
  | _ => false

/-- Stage-1 success predicate: some string pattern of the intent is
contained (lower-cased) in the normalized text. -/
def isLitMatch (text : String) : PyVal → Bool
  | .dict kvs =>
    match pyIter (objGetD kvs "patterns" (.list [])) with
    | .ok ps =>
      ps.any (fun p => match p with
              | .str s => pyIn (pyLower s) text
              | _ => false)
    | .error _ => false
  | _ => false

/-- `it.get("intent") == nm`. -/
def isNamed (nm : PyVal) : PyVal → Bool
  | .dict kvs => objGetD kvs "intent" PyVal.none == nm
  | _ => false

/-- The intent has a string pattern whose lower-casing is `ph`. -/
def hasPhrase (ph : String) : PyVal → Bool
  | .dict kvs =>
    match pyIter (objGetD kvs "patterns" (.list [])) with
    | .ok ps =>
      ps.any (fun p => match p with
              | .str s => pyLower s == ph
              | _ => false)
    | .error _ => false
  | _ => false

/-- The corpus phrase `ph` at some index is owned by this intent, whose
name is `nm`. -/
def ownsPhrase (ph : String) (nm : PyVal) (it : PyVal) : Bool :=
  isNamed nm it && hasPhrase ph it

/-! ## Helper lemmas -/

theorem extractBest_lt_length : ∀ l : List ℚ, l ≠ [] → (extractBest l).1 < l.length
  | [x], _ => by simp [extractBest]
  | x :: y :: ys, _ => by
    have ih := extractBest_lt_length (y :: ys) (by simp)
    simp only [extractBest]
    by_cases h : x < (extractBest (y :: ys)).2
    · simp only [h, if_true]
      simpa using Nat.succ_lt_succ ih
    · simp [h]

theorem extractBest_le : ∀ (l : List ℚ) (x : ℚ), x ∈ l → x ≤ (extractBest l).2
  | [a], x, h => by
    simp only [List.mem_singleton] at h
    simp [extractBest, h]
  | a :: b :: bs, x, h => by
    simp only [extractBest]
    rcases List.mem_cons.mp h with rfl | hmem
    · by_cases hc : x < (extractBest (b :: bs)).2
      · simpa [hc] using le_of_lt hc
      · simp [hc]
    · have ih := extractBest_le (b :: bs) x hmem
      by_cases hc : a < (extractBest (b :: bs)).2
      · simpa [hc] using ih
      · simpa [hc] using le_trans ih (not_lt.mp hc)

theorem extractBest_get : ∀ l : List ℚ, l ≠ [] →
    l.get? (extractBest l).1 = some (extractBest l).2
  | [a], _ => by simp [extractBest]
  | a :: b :: bs, _ => by
    have ih := extractBest_get (b :: bs) (by simp)
    simp only [extractBest]
    by_cases hc : a < (extractBest (b :: bs)).2
    · simpa [hc] using ih
    · simp [hc]

theorem extractBest_earlier_lt : ∀ (l : List ℚ) (j : Nat),
    j < (extractBest l).1 → l.getD j 0 < (extractBest l).2
  | [a], j, h => by simp [extractBest] at h
  | a :: b :: bs, j, h => by
    simp only [extractBest] at h ⊢
    by_cases hc : a < (extractBest (b :: bs)).2
    · simp only [hc, if_true] at h ⊢
      cases j with
      | zero => simpa using hc
      | succ k =>
        have ih := extractBest_earlier_lt (b :: bs) k (by omega)
        simpa using ih
    · simp [hc] at h

theorem isPrefixOf_self_char (l : List Char) : l.isPrefixOf l = true := by
  simp [List.isPrefixOf_iff_prefix]

theorem containsSub_self : ∀ l : List Char, containsSub l l = true
  | [] => rfl
  | c :: t => by simp [containsSub, isPrefixOf_self_char]

theorem containsSub_nil : ∀ l : List Char, containsSub l [] = true
  | [] => rfl
  | c :: t => by simp [containsSub, List.isPrefixOf]

theorem toLower_of_isWhitespace {c : Char} (h : c.isWhitespace = true) :
    c.toLower = c := by
  simp only [Char.isWhitespace, Bool.or_eq_true, decide_eq_true_eq] at h
  rcases h with ((h | h) | h) | h <;> subst h <;> decide

theorem map_toLower_of_isWhitespace : ∀ l : List Char,
    (∀ c ∈ l, c.isWhitespace = true) → l.map Char.toLower = l
  | [], _ => rfl
  | c :: t, h => by
    have hc := h c (List.mem_cons_self c t)
    have ht := map_toLower_of_isWhitespace t (fun x hx => h x (List.mem_cons_of_mem c hx))
    simp [toLower_of_isWhitespace hc, ht]

theorem dropWhile_isWhitespace_of_all : ∀ l : List Char,
    (∀ c ∈ l, c.isWhitespace = true) → l.dropWhile Char.isWhitespace = []
  | [], _ => rfl
  | c :: t, h => by
    have hc := h c (List.mem_cons_self c t)
    have ht := dropWhile_isWhitespace_of_all t (fun x hx => h x (List.mem_cons_of_mem c hx))
    simp [List.dropWhile, hc, ht]

theorem stripChars_of_all_isWhitespace (l : List Char)
    (h : ∀ c ∈ l, c.isWhitespace = true) : stripChars l = [] := by
  unfold stripChars
  rw [dropWhile_isWhitespace_of_all l h]
  rfl

theorem normalizeText_data_of_all_isWhitespace (s : String)
    (h : ∀ c ∈ s.data, c.isWhitespace = true) : (normalizeText (some s)).data = [] := by
  show (pyStrip (pyLower s)).data = []
  show stripChars (s.data.map Char.toLower) = []
  rw [map_toLower_of_isWhitespace s.data h]
  exact stripChars_of_all_isWhitespace s.data h

theorem goodIntent_spec (it : PyVal) (h : goodIntent it = true) :
    ∃ kvs ps, it = .dict kvs ∧ pyIter (objGetD kvs "patterns" (.list [])) = .ok ps := by
  cases it with
  | dict kvs =>
    simp only [goodIntent] at h
    cases hpi : pyIter (objGetD kvs "patterns" (.list [])) with
    | error e => rw [hpi] at h; simp at h
    | ok ps => exact ⟨kvs, ps, rfl, hpi⟩
  | str s => simp [goodIntent] at h
  | int n => simp [goodIntent] at h
  | bool b => simp [goodIntent] at h
  | none => simp [goodIntent] at h
  | list xs => simp [goodIntent] at h
  | rx p => simp [goodIntent] at h

theorem corpusOfIntent_ok_good (it : PyVal) (prs : List (String × PyVal))
    (h : corpusOfIntent it = .ok prs) : goodIntent it = true := by
  cases it with
  | dict kvs =>
    simp only [corpusOfIntent] at h
    cases hpi : pyIter (objGetD kvs "patterns" (.list [])) with
    | error e => rw [hpi] at h; simp at h
    | ok ps => simp [goodIntent, hpi]
  | str s => simp [corpusOfIntent] at h
  | int n => simp [corpusOfIntent] at h
  | bool b => simp [corpusOfIntent] at h
  | none => simp [corpusOfIntent] at h
  | list xs => simp [corpusOfIntent] at h
  | rx p => simp [corpusOfIntent] at h

theorem corpusPhaseList_ok_good : ∀ (its : List PyVal) (pairs : List (String × PyVal)),
    corpusPhaseList its = (pairs, Option.none) → its.all goodIntent = true
  | [], _, _ => rfl
  | it :: its, pairs, h => by
    simp only [corpusPhaseList] at h
    cases hci : corpusOfIntent it with
    | error e => rw [hci] at h; simp at h
    | ok prs =>
      rw [hci] at h
      simp only [Prod.mk.injEq] at h
      obtain ⟨h1, h2⟩ := h
      have hg : goodIntent it = true := corpusOfIntent_ok_good it prs hci
      have hrec : corpusPhaseList its = ((corpusPhaseList its).1, Option.none) := by
        rw [← h2]
      have ih := corpusPhaseList_ok_good its (corpusPhaseList its).1 hrec
      simp [List.all_cons, hg, ih]

theorem corpusPhase_ok (v : PyVal) (pairs : List (String × PyVal))
    (h : corpusPhase v = (pairs, Option.none)) :
    ∃ its, pyIter v = .ok its ∧ corpusPhaseList its = (pairs, Option.none) ∧
      its.all goodIntent = true := by
  cases v with
  | list xs => exact ⟨xs, rfl, h, corpusPhaseList_ok_good xs pairs h⟩
  | dict kvs =>
    simp only [corpusPhase, Prod.mk.injEq] at h
    obtain ⟨h1, h2⟩ := h
    by_cases hk : kvs.isEmpty
    · have hnil : kvs = [] := List.isEmpty_iff.mp hk
      subst hnil
      subst h1
      exact ⟨[], rfl, rfl, rfl⟩
    · rw [if_neg hk] at h2
      exact absurd h2 (by simp)
  | str s =>
    simp only [corpusPhase, Prod.mk.injEq] at h
    obtain ⟨h1, h2⟩ := h
    by_cases hk : s.data.isEmpty
    · have hnil : s.data = [] := List.isEmpty_iff.mp hk
      subst h1
      exact ⟨[], by simp [pyIter, hnil], rfl, rfl⟩
    · rw [if_neg hk] at h2
      exact absurd h2 (by simp)
  | int n => simp [corpusPhase] at h
  | bool b => simp [corpusPhase] at h
  | none => simp [corpusPhase] at h
  | rx p => simp [corpusPhase] at h

theorem load_ok_spec (reValid : String → Bool) (st0 : St) (raw : PyVal) (st : St)
    (h : load_intents reValid st0 raw = (st, Option.none)) :
    ∃ its pairs,
      pyIter st.intents = .ok its ∧
      its.all goodIntent = true ∧
      corpusPhaseList its = (pairs, Option.none) ∧
      st.corpus = pairs.map Prod.fst ∧
      st.patternToIntent = pairs.map Prod.snd ∧
      st.tfidfCorpus = (if (pairs.map Prod.fst).isEmpty then Option.none
                        else some (pairs.map Prod.fst)) := by
  unfold load_intents at h
  rcases hreg : regexPhase reValid (pickIntents raw) with ⟨v, e1⟩
  rw [hreg] at h
  cases e1 with
  | some e => simp at h
  | none =>
    dsimp only at h
    rcases hcp : corpusPhase v with ⟨pairs, e2⟩
    rw [hcp] at h
    cases e2 with
    | some e => simp at h
    | none =>
      dsimp only at h
      simp only [Prod.mk.injEq, and_true] at h
      subst h
      obtain ⟨its, hi, hcl, hg⟩ := corpusPhase_ok v pairs hcp
      exact ⟨its, pairs, hi, hg, hcl, rfl, rfl, rfl⟩

theorem filterMap_str_align (ps : List PyVal) (nm : PyVal) :
    ((ps.filterMap (fun p => match p with
        | .str s => some s
        | _ => Option.none)).map pyLower)
      = (ps.filterMap (fun p => match p with
          | .str s => some (pyLower s, nm)
          | _ => Option.none)).map Prod.fst := by
  induction ps with
  | nil => rfl
  | cons p t ih => cases p <;> simp [List.filterMap_cons, ih]

theorem allPatternsOf_align : ∀ its : List PyVal, its.all goodIntent = true →
    ∃ aps, allPatternsOf its = .ok aps ∧
      aps.map pyLower = (corpusPhaseList its).1.map Prod.fst ∧
      (corpusPhaseList its).2 = Option.none
  | [], _ => ⟨[], rfl, rfl, rfl⟩
  | it :: its, h => by
    rw [List.all_cons, Bool.and_eq_true] at h
    obtain ⟨hg, ht⟩ := h
    obtain ⟨kvs, ps, rfl, hpi⟩ := goodIntent_spec it hg
    obtain ⟨aps, ha, hal, hnone⟩ := allPatternsOf_align its ht
    refine ⟨(ps.filterMap (fun p => match p with
        | .str s => some s
        | _ => Option.none)) ++ aps, ?_, ?_, ?_⟩
    · simp only [allPatternsOf]
      rw [hpi, ha]
    · simp only [corpusPhaseList, corpusOfIntent]
      rw [hpi]
      simp only [List.map_append, hal]
      rw [filterMap_str_align ps (objGetD kvs "intent" PyVal.none)]
    · simp only [corpusPhaseList, corpusOfIntent]
      rw [hpi]
      exact hnone

theorem corpus_owner_mem : ∀ (its : List PyVal) (pairs : List (String × PyVal)),
    corpusPhaseList its = (pairs, Option.none) →
    ∀ pr ∈ pairs, ∃ it, it ∈ its ∧ ownsPhrase pr.1 pr.2 it = true
  | [], pairs, h, pr, hpr => by
    simp only [corpusPhaseList, Prod.mk.injEq] at h
    obtain ⟨h1, -⟩ := h
    rw [← h1] at hpr
    simp at hpr
  | it :: its, pairs, h, pr, hpr => by
    simp only [corpusPhaseList] at h
    cases hci : corpusOfIntent it with
    | error e => rw [hci] at h; simp at h
    | ok prs =>
      rw [hci] at h
      simp only [Prod.mk.injEq] at h
      obtain ⟨h1, h2⟩ := h
      rw [← h1] at hpr
      rcases List.mem_append.mp hpr with hl | hr
      · obtain ⟨kvs, ps, rfl, hpi⟩ :=
          goodIntent_spec it (corpusOfIntent_ok_good it prs hci)
        simp only [corpusOfIntent] at hci
        rw [hpi] at hci
        simp only [Except.ok.injEq] at hci
        rw [← hci] at hl
        obtain ⟨p, hp, hf⟩ := List.mem_filterMap.mp hl
        cases p with
        | str s =>
          simp only [Option.some.injEq] at hf
          obtain ⟨pf, pn⟩ := pr
          simp only [Prod.mk.injEq] at hf
          obtain ⟨hf1, hf2⟩ := hf
          subst hf1
          subst hf2
          refine ⟨.dict kvs, List.mem_cons_self _ _, ?_⟩
          simp only [ownsPhrase, isNamed, hasPhrase]
          rw [hpi]
          simp only [PyVal.beq_self, Bool.true_and]
          rw [List.any_eq_true]
          exact ⟨.str s, hp, by simp⟩
        | int n => simp at hf
        | bool b => simp at hf
        | none => simp at hf
        | list xs => simp at hf
        | dict kvs2 => simp at hf
        | rx pt => simp at hf
      · have hrec : corpusPhaseList its = ((corpusPhaseList its).1, Option.none) := by
          rw [← h2]
        obtain ⟨jt, hjt, hown⟩ := corpus_owner_mem its (corpusPhaseList its).1 hrec pr hr
        exact ⟨jt, List.mem_cons_of_mem it hjt, hown⟩

theorem resolveIntent_eq_find (nm : PyVal) : ∀ its : List PyVal,
    (∀ it ∈ its, goodIntent it = true) →
    resolveIntent nm its = .ok (its.find? (isNamed nm))
  | [], _ => rfl
  | it :: its, h => by
    obtain ⟨kvs, ps, rfl, hpi⟩ := goodIntent_spec it (h _ (List.mem_cons_self _ _))
    have ih := resolveIntent_eq_find nm its (fun x hx => h x (List.mem_cons_of_mem _ hx))
    simp only [resolveIntent]
    by_cases hn : (objGetD kvs "intent" PyVal.none == nm) = true
    · rw [if_pos hn, List.find?_cons_of_pos _ (show isNamed nm (.dict kvs) = true from hn)]
    · rw [if_neg hn, List.find?_cons_of_neg _ (show ¬ isNamed nm (.dict kvs) = true from hn)]
      exact ih

theorem stage1_eq_find (text : String) : ∀ its : List PyVal,
    (∀ it ∈ its, goodIntent it = true) →
    stage1 text its = .ok (its.find? (isLitMatch text))
  | [], _ => rfl
  | it :: its, h => by
    obtain ⟨kvs, ps, rfl, hpi⟩ := goodIntent_spec it (h _ (List.mem_cons_self _ _))
    have ih := stage1_eq_find text its (fun x hx => h x (List.mem_cons_of_mem _ hx))
    have hlit : isLitMatch text (.dict kvs)
        = ps.any (fun p => match p with
            | .str s => pyIn (pyLower s) text
            | _ => false) := by
      simp only [isLitMatch]
      rw [hpi]
    simp only [stage1]
    rw [hpi]
    dsimp only
    by_cases ha : ps.any (fun p => match p with
        | .str s => pyIn (pyLower s) text
        | _ => false) = true
    · rw [if_pos ha, List.find?_cons_of_pos _ (by rw [hlit]; exact ha)]
    · rw [if_neg ha, List.find?_cons_of_neg _ (by rw [hlit]; exact ha)]
      exact ih

theorem find_intent_of_stage1_some (reSearch : String → String → Bool)
    (fuzzScore : String → String → ℚ) (cosSimC : List String → String → Nat → ℚ)
    (st : St) (u : Option String) (ft tt : ℚ) (its : List PyVal) (it : PyVal)
    (htext : (normalizeText u).data.isEmpty = false)
    (hits : pyIter st.intents = .ok its)
    (h1 : stage1 (normalizeText u) its = .ok (some it)) :
    find_intent reSearch fuzzScore cosSimC st u ft tt = .ok (some it) := by
  unfold find_intent
  rw [htext]
  rw [if_neg (by simp)]
  rw [hits]
  dsimp only
  rw [h1]

theorem find_intent_of_stage3_some (reSearch : String → String → Bool)
    (fuzzScore : String → String → ℚ) (cosSimC : List String → String → Nat → ℚ)
    (st : St) (u : Option String) (ft tt : ℚ) (its : List PyVal) (it : PyVal)
    (htext : (normalizeText u).data.isEmpty = false)
    (hits : pyIter st.intents = .ok its)
    (h1 : stage1 (normalizeText u) its = .ok Option.none)
    (h2 : stage2 reSearch (normalizeText u) its = .ok Option.none)
    (h3 : stage3 fuzzScore st its (normalizeText u) ft = .ok (some it)) :
    find_intent reSearch fuzzScore cosSimC st u ft tt = .ok (some it) := by
  unfold find_intent
  rw [htext]
  rw [if_neg (by simp)]
  rw [hits]
  dsimp only
  rw [h1]
  dsimp only
  rw [h2]
  dsimp only
  rw [h3]

theorem find_intent_of_stage123_none (reSearch : String → String → Bool)
    (fuzzScore : String → String → ℚ) (cosSimC : List String → String → Nat → ℚ)
    (st : St) (u : Option String) (ft tt : ℚ) (its : List PyVal)
    (htext : (normalizeText u).data.isEmpty = false)
    (hits : pyIter st.intents = .ok its)
    (h1 : stage1 (normalizeText u) its = .ok Option.none)
    (h2 : stage2 reSearch (normalizeText u) its = .ok Option.none)
    (h3 : stage3 fuzzScore st its (normalizeText u) ft = .ok Option.none) :
    find_intent reSearch fuzzScore cosSimC st u ft tt =
      stage4 cosSimC st its (normalizeText u) tt := by
  unfold find_intent
  rw [htext]
  rw [if_neg (by simp)]
  rw [hits]
  dsimp only
  rw [h1]
  dsimp only
  rw [h2]
  dsimp only
  rw [h3]

theorem find_intent_of_empty (reSearch : String → String → Bool)
    (fuzzScore : String → String → ℚ) (cosSimC : List String → String → Nat → ℚ)
    (st : St) (u : Option String) (ft tt : ℚ)
    (htext : (normalizeText u).data = []) :
    find_intent reSearch fuzzScore cosSimC st u ft tt = .ok Option.none := by
  unfold find_intent
  rw [htext]
  rfl

theorem all_goodIntent_of_mem {its : List PyVal} (hg : its.all goodIntent = true) :
    ∀ it ∈ its, goodIntent it = true :=
  fun it hit => List.all_eq_true.mp hg it hit

/-! ## Claims -/

/-- C9: for every input that is absent (`None`), empty, or consisting only
of whitespace, `find_intent` returns no match immediately, for every state
and every threshold setting (no stage is consulted: the result does not
depend on the similarity functions, the state, or the thresholds). -/
theorem c9_empty_input_no_match (reSearch : String → String → Bool)
    (fuzzScore : String → String → ℚ) (cosSimC : List String → String → Nat → ℚ)
    (st : St) (u : Option String) (ft tt : ℚ)
    (h : u = Option.none ∨ u = some "" ∨
         ∃ s, u = some s ∧ ∀ c ∈ s.data, c.isWhitespace = true) :
    find_intent reSearch fuzzScore cosSimC st u ft tt = .ok Option.none := by
  apply find_intent_of_empty
  rcases h with rfl | rfl | ⟨s, rfl, hs⟩
  · rfl
  · rfl
  · exact normalizeText_data_of_all_isWhitespace s hs

theorem c9_witness :
    find_intent (fun _ _ => false) (fun _ _ => (0 : ℚ)) (fun _ _ _ => (0 : ℚ))
        (St.mk (.list [.dict [("intent", .str "greet"),
            ("patterns", .list [.str "hi"]), ("response", .str "Hello"),
            ("_regex", PyVal.none)]]) [.str "greet"] ["hi"] (some ["hi"]))
        (some "  ") 70 (35 / 100) = .ok Option.none :=
  c9_empty_input_no_match _ _ _ _ _ _ _
    (Or.inr (Or.inr ⟨"  ", rfl, by decide⟩))

/-- C2: on every successfully built index, whenever some intent has a
stage-1 literal substring match on the normalized text, `find_intent`
returns exactly the first such intent in store order — for every choice of
the regex-search, fuzzy-score and cosine-similarity functions and of both
thresholds, so no stage-2/3/4 result is ever returned on such a text. -/
theorem c2_stage1_priority (reValid : String → Bool) (reSearch : String → String → Bool)
    (fuzzScore : String → String → ℚ) (cosSimC : List String → String → Nat → ℚ)
    (st0 : St) (raw : PyVal) (st : St) (u : Option String) (ft tt : ℚ)
    (its : List PyVal)
    (hload : load_intents reValid st0 raw = (st, Option.none))
    (hits : pyIter st.intents = .ok its)
    (htext : (normalizeText u).data.isEmpty = false)
    (hmatch : ∃ it ∈ its, isLitMatch (normalizeText u) it = true) :
    find_intent reSearch fuzzScore cosSimC st u ft tt
      = .ok (its.find? (isLitMatch (normalizeText u))) ∧
    (its.find? (isLitMatch (normalizeText u))).isSome = true := by
  obtain ⟨its2, pairs, hi2, hg, -, -, -, -⟩ := load_ok_spec reValid st0 raw st hload
  rw [hits] at hi2
  injection hi2 with hi2
  subst hi2
  have hgood := all_goodIntent_of_mem hg
  have hfind : (its.find? (isLitMatch (normalizeText u))).isSome = true :=
    List.find?_isSome.mpr hmatch
  obtain ⟨w, hw⟩ := Option.isSome_iff_exists.mp hfind
  have h1 : stage1 (normalizeText u) its = .ok (some w) := by
    rw [stage1_eq_find _ _ hgood, hw]
  refine ⟨?_, hfind⟩
  rw [find_intent_of_stage1_some reSearch fuzzScore cosSimC st u ft tt its w
      htext hits h1, hw]

theorem c2_witness :
    find_intent (fun _ _ => true) (fun _ _ => (100 : ℚ)) (fun _ _ _ => (1 : ℚ))
        (St.mk (.list [.dict [("intent", .str "greet"),
            ("patterns", .list [.str "hi"]), ("response", .str "Hello"),
            ("_regex", PyVal.none)]]) [.str "greet"] ["hi"] (some ["hi"]))
        (some "HI there") 70 (35 / 100)
      = .ok (([PyVal.dict [("intent", .str "greet"),
            ("patterns", .list [.str "hi"]), ("response", .str "Hello"),
            ("_regex", PyVal.none)]].find?
              (isLitMatch (normalizeText (some "HI there"))))) ∧
    ([PyVal.dict [("intent", .str "greet"),
        ("patterns", .list [.str "hi"]), ("response", .str "Hello"),
        ("_regex", PyVal.none)]].find?
          (isLitMatch (normalizeText (some "HI there")))).isSome = true :=
  c2_stage1_priority (fun _ => true) (fun _ _ => true) (fun _ _ => (100 : ℚ))
    (fun _ _ _ => (1 : ℚ)) (St.mk (.list []) [] [] Option.none)
    (.list [.dict [("intent", .str "greet"), ("patterns", .list [.str "hi"]),
      ("response", .str "Hello")]])
    (St.mk (.list [.dict [("intent", .str "greet"),
        ("patterns", .list [.str "hi"]), ("response", .str "Hello"),
        ("_regex", PyVal.none)]]) [.str "greet"] ["hi"] (some ["hi"]))
    (some "HI there") 70 (35 / 100)
    [.dict [("intent", .str "greet"), ("patterns", .list [.str "hi"]),
      ("response", .str "Hello"), ("_regex", PyVal.none)]]
    rfl rfl rfl
    ⟨.dict [("intent", .str "greet"), ("patterns", .list [.str "hi"]),
      ("response", .str "Hello"), ("_regex", PyVal.none)],
     List.mem_singleton.mpr rfl, rfl⟩

/-- C10: if a stored intent's pattern list contains the empty string, then
for every input whose trimmed lower-cased form is non-empty the cascade
returns a non-`None` intent at stage 1 — the first intent in store order
one of whose patterns is contained in the normalized text — so the rule,
fuzzy and vector stages and their thresholds are never consulted (the
result is the same for every choice of those functions and thresholds). -/
theorem c10_empty_pattern_matches_everything (reValid : String → Bool)
    (reSearch : String → String → Bool) (fuzzScore : String → String → ℚ)
    (cosSimC : List String → String → Nat → ℚ)
    (st0 : St) (raw : PyVal) (st : St) (u : Option String) (ft tt : ℚ)
    (its : List PyVal) (kvs : List (String × PyVal)) (ps : List PyVal)
    (hload : load_intents reValid st0 raw = (st, Option.none))
    (hits : pyIter st.intents = .ok its)
    (htext : (normalizeText u).data.isEmpty = false)
    (hmem : PyVal.dict kvs ∈ its)
    (hpi : pyIter (objGetD kvs "patterns" (.list [])) = .ok ps)
    (hp : PyVal.str "" ∈ ps) :
    find_intent reSearch fuzzScore cosSimC st u ft tt
      = .ok (its.find? (isLitMatch (normalizeText u))) ∧
    (its.find? (isLitMatch (normalizeText u))).isSome = true := by
  obtain ⟨its2, pairs, hi2, hg, -, -, -, -⟩ := load_ok_spec reValid st0 raw st hload
  rw [hits] at hi2
  injection hi2 with hi2
  subst hi2
  have hgood := all_goodIntent_of_mem hg
  have hlit : isLitMatch (normalizeText u) (.dict kvs) = true := by
    simp only [isLitMatch]
    rw [hpi]
    dsimp only
    rw [List.any_eq_true]
    exact ⟨.str "", hp, containsSub_nil (normalizeText u).data⟩
  have hfind : (its.find? (isLitMatch (normalizeText u))).isSome = true :=
    List.find?_isSome.mpr ⟨.dict kvs, hmem, hlit⟩
  obtain ⟨w, hw⟩ := Option.isSome_iff_exists.mp hfind
  have h1 : stage1 (normalizeText u) its = .ok (some w) := by
    rw [stage1_eq_find _ _ hgood, hw]
  refine ⟨?_, hfind⟩
  rw [find_intent_of_stage1_some reSearch fuzzScore cosSimC st u ft tt its w
      htext hits h1, hw]

theorem c10_witness :
    find_intent (fun _ _ => false) (fun _ _ => (0 : ℚ)) (fun _ _ _ => (0 : ℚ))
        (St.mk (.list [.dict [("intent", .str "catchall"),
            ("patterns", .list [.str ""]), ("response", .str "Always"),
            ("_regex", PyVal.none)]]) [.str "catchall"] [""] (some [""]))
        (some "zzz unrelated") 70 (35 / 100)
      = .ok (([PyVal.dict [("intent", .str "catchall"),
            ("patterns", .list [.str ""]), ("response", .str "Always"),
            ("_regex", PyVal.none)]].find?
              (isLitMatch (normalizeText (some "zzz unrelated"))))) ∧
    ([PyVal.dict [("intent", .str "catchall"),
        ("patterns", .list [.str ""]), ("response", .str "Always"),
        ("_regex", PyVal.none)]].find?
          (isLitMatch (normalizeText (some "zzz unrelated")))).isSome = true :=
  c10_empty_pattern_matches_everything (fun _ => true) (fun _ _ => false)
    (fun _ _ => (0 : ℚ)) (fun _ _ _ => (0 : ℚ)) (St.mk (.list []) [] [] Option.none)
    (.list [.dict [("intent", .str "catchall"), ("patterns", .list [.str ""]),
      ("response", .str "Always")]])
    (St.mk (.list [.dict [("intent", .str "catchall"),
        ("patterns", .list [.str ""]), ("response", .str "Always"),
        ("_regex", PyVal.none)]]) [.str "catchall"] [""] (some [""]))
    (some "zzz unrelated") 70 (35 / 100)
    [.dict [("intent", .str "catchall"), ("patterns", .list [.str ""]),
      ("response", .str "Always"), ("_regex", PyVal.none)]]
    [("intent", .str "catchall"), ("patterns", .list [.str ""]),
      ("response", .str "Always"), ("_regex", PyVal.none)]
    [.str ""]
    rfl rfl rfl (List.mem_singleton.mpr rfl) rfl (List.mem_singleton.mpr rfl)

/-- C8: on every successfully built index, the flattened corpus and the
pattern-to-owning-intent-name mapping have the same length, and at every
index the phrase is a lower-cased string pattern of a stored intent whose
name is the mapping entry at that index. -/
theorem c8_corpus_mapping_aligned (reValid : String → Bool) (st0 : St) (raw : PyVal)
    (st : St) (its : List PyVal)
    (hload : load_intents reValid st0 raw = (st, Option.none))
    (hits : pyIter st.intents = .ok its) :
    st.corpus.length = st.patternToIntent.length ∧
    ∀ (i : Nat) (ph : String) (nm : PyVal),
      st.corpus.get? i = some ph → st.patternToIntent.get? i = some nm →
      ∃ it ∈ its, ownsPhrase ph nm it = true := by
  obtain ⟨its2, pairs, hi2, hg, hcl, hc, hpti, -⟩ := load_ok_spec reValid st0 raw st hload
  rw [hits] at hi2
  injection hi2 with hi2
  subst hi2
  constructor
  · rw [hc, hpti]
    simp
  · intro i ph nm hph hnm
    rw [hc, List.get?_map] at hph
    rw [hpti, List.get?_map] at hnm
    cases hpr : pairs.get? i with
    | none =>
      rw [hpr] at hph
      simp at hph
    | some pr =>
      rw [hpr] at hph hnm
      simp only [Option.map_some', Option.some.injEq] at hph hnm
      obtain ⟨it, hit, hown⟩ := corpus_owner_mem its pairs hcl pr (List.get?_mem hpr)
      rw [← hph, ← hnm]
      exact ⟨it, hit, hown⟩

theorem c8_witness :
    (["hi"] : List String).length = ([PyVal.str "greet"] : List PyVal).length ∧
    ∃ it ∈ [PyVal.dict [("intent", .str "greet"), ("patterns", .list [.str "hi"]),
        ("response", .str "Hello"), ("_regex", PyVal.none)]],
      ownsPhrase "hi" (.str "greet") it = true :=
  ⟨(c8_corpus_mapping_aligned (fun _ => true) (St.mk (.list []) [] [] Option.none)
      (.list [.dict [("intent", .str "greet"), ("patterns", .list [.str "hi"]),
        ("response", .str "Hello")]])
      (St.mk (.list [.dict [("intent", .str "greet"),
          ("patterns", .list [.str "hi"]), ("response", .str "Hello"),
          ("_regex", PyVal.none)]]) [.str "greet"] ["hi"] (some ["hi"]))
      [.dict [("intent", .str "greet"), ("patterns", .list [.str "hi"]),
        ("response", .str "Hello"), ("_regex", PyVal.none)]]
      rfl rfl).1,
   (c8_corpus_mapping_aligned (fun _ => true) (St.mk (.list []) [] [] Option.none)
      (.list [.dict [("intent", .str "greet"), ("patterns", .list [.str "hi"]),
        ("response", .str "Hello")]])
      (St.mk (.list [.dict [("intent", .str "greet"),
          ("patterns", .list [.str "hi"]), ("response", .str "Hello"),
          ("_regex", PyVal.none)]]) [.str "greet"] ["hi"] (some ["hi"]))
      [.dict [("intent", .str "greet"), ("patterns", .list [.str "hi"]),
        ("response", .str "Hello"), ("_regex", PyVal.none)]]
      rfl rfl).2 0 "hi" (.str "greet") rfl rfl⟩

/-- C6: on every successfully built index, when stages 1 and 2 produce
nothing and the flattened pattern list is non-empty, then (a) if the best
fuzzy score meets or exceeds the fuzzy threshold, the cascade returns the
first intent in store order whose name equals the owner name recorded at
the best-scoring index (such an intent always exists, also under duplicate
names); and (b) if the best score is below the threshold, the cascade
continues to stage 4. -/
theorem c6_fuzzy_stage (reValid : String → Bool) (reSearch : String → String → Bool)
    (fuzzScore : String → String → ℚ) (cosSimC : List String → String → Nat → ℚ)
    (st0 : St) (raw : PyVal) (st : St) (u : Option String) (ft tt : ℚ)
    (its : List PyVal) (aps : List String)
    (hload : load_intents reValid st0 raw = (st, Option.none))
    (hits : pyIter st.intents = .ok its)
    (htext : (normalizeText u).data.isEmpty = false)
    (h1 : stage1 (normalizeText u) its = .ok Option.none)
    (h2 : stage2 reSearch (normalizeText u) its = .ok Option.none)
    (hap : allPatternsOf its = .ok aps)
    (hne : aps ≠ []) :
    (ft ≤ (extractBest (aps.map (fun p => fuzzScore (normalizeText u) p))).2 →
      ∃ nm, st.patternToIntent.get?
          (extractBest (aps.map (fun p => fuzzScore (normalizeText u) p))).1
          = some nm ∧
        find_intent reSearch fuzzScore cosSimC st u ft tt
          = .ok (its.find? (isNamed nm)) ∧
        (its.find? (isNamed nm)).isSome = true) ∧
    ((extractBest (aps.map (fun p => fuzzScore (normalizeText u) p))).2 < ft →
      find_intent reSearch fuzzScore cosSimC st u ft tt
        = stage4 cosSimC st its (normalizeText u) tt) := by
  obtain ⟨its2, pairs, hi2, hg, hcl, hc, hpti, -⟩ := load_ok_spec reValid st0 raw st hload
  rw [hits] at hi2
  injection hi2 with hi2
  subst hi2
  have hgood := all_goodIntent_of_mem hg
  obtain ⟨aps2, hap2, hal, -⟩ := allPatternsOf_align its hg
  rw [hap] at hap2
  injection hap2 with hap2
  subst hap2
  have hpairs1 : (corpusPhaseList its).1 = pairs := by rw [hcl]
  rw [hpairs1] at hal
  have hlen : aps.length = st.patternToIntent.length := by
    rw [hpti]
    have h := congrArg List.length hal
    simpa using h
  have hmapne : aps.map (fun p => fuzzScore (normalizeText u) p) ≠ [] := by
    simpa using hne
  have hblt : (extractBest (aps.map (fun p => fuzzScore (normalizeText u) p))).1
      < aps.length := by
    have h := extractBest_lt_length _ hmapne
    simpa using h
  have hnm : ∃ nm, st.patternToIntent.get?
      (extractBest (aps.map (fun p => fuzzScore (normalizeText u) p))).1 = some nm := by
    cases hq : st.patternToIntent.get?
        (extractBest (aps.map (fun p => fuzzScore (normalizeText u) p))).1 with
    | some nm => exact ⟨nm, rfl⟩
    | none =>
      rw [List.get?_eq_none] at hq
      omega
  obtain ⟨nm, hnmq⟩ := hnm
  constructor
  · intro hth
    have hmemnm : nm ∈ st.patternToIntent := List.get?_mem hnmq
    rw [hpti] at hmemnm
    obtain ⟨pr, hpr, hpr2⟩ := List.mem_map.mp hmemnm
    obtain ⟨jt, hjt, hown⟩ := corpus_owner_mem its pairs hcl pr hpr
    have hnamed : isNamed nm jt = true := by
      rw [← hpr2]
      simp only [ownsPhrase, Bool.and_eq_true] at hown
      exact hown.1
    have hfind : (its.find? (isNamed nm)).isSome = true :=
      List.find?_isSome.mpr ⟨jt, hjt, hnamed⟩
    obtain ⟨w, hw⟩ := Option.isSome_iff_exists.mp hfind
    have h3 : stage3 fuzzScore st its (normalizeText u) ft = .ok (some w) := by
      unfold stage3
      rw [hap]
      dsimp only
      rw [if_neg (by simpa [List.isEmpty_iff] using hne)]
      rw [if_pos hth]
      unfold pyIndex
      rw [hnmq]
      dsimp only
      rw [resolveIntent_eq_find nm its hgood, hw]
    refine ⟨nm, hnmq, ?_, hfind⟩
    rw [find_intent_of_stage3_some reSearch fuzzScore cosSimC st u ft tt its w
        htext hits h1 h2 h3, hw]
  · intro hth
    have h3 : stage3 fuzzScore st its (normalizeText u) ft = .ok Option.none := by
      unfold stage3
      rw [hap]
      dsimp only
      rw [if_neg (by simpa [List.isEmpty_iff] using hne)]
      rw [if_neg (not_le.mpr hth)]
    exact find_intent_of_stage123_none reSearch fuzzScore cosSimC st u ft tt its
      htext hits h1 h2 h3

theorem c6_witness :
    ∃ nm, ([PyVal.str "cancel"] : List PyVal).get?
        (extractBest (["cancel my reservation"].map
          (fun p => (fun _ _ => (80 : ℚ)) (normalizeText (some "plz cancl my reservaton")) p))).1
        = some nm ∧
      find_intent (fun _ _ => false) (fun _ _ => (80 : ℚ)) (fun _ _ _ => (0 : ℚ))
          (St.mk (.list [.dict [("intent", .str "cancel"),
              ("patterns", .list [.str "cancel my reservation"]),
              ("response", .str "Cancelled"), ("_regex", PyVal.none)]])
            [.str "cancel"] ["cancel my reservation"] (some ["cancel my reservation"]))
          (some "plz cancl my reservaton") 70 (35 / 100)
        = .ok (([PyVal.dict [("intent", .str "cancel"),
            ("patterns", .list [.str "cancel my reservation"]),
            ("response", .str "Cancelled"), ("_regex", PyVal.none)]]).find? (isNamed nm)) ∧
      (([PyVal.dict [("intent", .str "cancel"),
          ("patterns", .list [.str "cancel my reservation"]),
          ("response", .str "Cancelled"), ("_regex", PyVal.none)]]).find?
            (isNamed nm)).isSome = true :=
  (c6_fuzzy_stage (fun _ => true) (fun _ _ => false) (fun _ _ => (80 : ℚ))
    (fun _ _ _ => (0 : ℚ)) (St.mk (.list []) [] [] Option.none)
    (.list [.dict [("intent", .str "cancel"),
      ("patterns", .list [.str "cancel my reservation"]),
      ("response", .str "Cancelled")]])
    (St.mk (.list [.dict [("intent", .str "cancel"),
        ("patterns", .list [.str "cancel my reservation"]),
        ("response", .str "Cancelled"), ("_regex", PyVal.none)]])
      [.str "cancel"] ["cancel my reservation"] (some ["cancel my reservation"]))
    (some "plz cancl my reservaton") 70 (35 / 100)
    [.dict [("intent", .str "cancel"),
      ("patterns", .list [.str "cancel my reservation"]),
      ("response", .str "Cancelled"), ("_regex", PyVal.none)]]
    ["cancel my reservation"]
    rfl rfl rfl rfl rfl rfl (by decide)).1 (by decide)

/-- C7: on every successfully built index with a trained similarity model,
when stages 1–3 produce nothing, the stage-4 similarity query selects the
first corpus index attaining the maximum similarity (all earlier indices
score strictly less, and no index scores more), and the cascade returns
the intent resolved from that index's owner name if the best similarity
meets or exceeds the semantic threshold, and returns no match if it is
below the threshold. -/
theorem c7_vector_stage (reValid : String → Bool) (reSearch : String → String → Bool)
    (fuzzScore : String → String → ℚ) (cosSimC : List String → String → Nat → ℚ)
    (st0 : St) (raw : PyVal) (st : St) (u : Option String) (ft tt : ℚ)
    (its : List PyVal) (tc : List String)
    (hload : load_intents reValid st0 raw = (st, Option.none))
    (hits : pyIter st.intents = .ok its)
    (htext : (normalizeText u).data.isEmpty = false)
    (h1 : stage1 (normalizeText u) its = .ok Option.none)
    (h2 : stage2 reSearch (normalizeText u) its = .ok Option.none)
    (h3 : stage3 fuzzScore st its (normalizeText u) ft = .ok Option.none)
    (htc : st.tfidfCorpus = some tc) :
    (∀ j, j < (extractBest ((List.range tc.length).map (cosSimC tc (normalizeText u)))).1 →
      ((List.range tc.length).map (cosSimC tc (normalizeText u))).getD j 0
        < (extractBest ((List.range tc.length).map (cosSimC tc (normalizeText u)))).2) ∧
    (∀ x ∈ (List.range tc.length).map (cosSimC tc (normalizeText u)),
      x ≤ (extractBest ((List.range tc.length).map (cosSimC tc (normalizeText u)))).2) ∧
    (tt ≤ (extractBest ((List.range tc.length).map (cosSimC tc (normalizeText u)))).2 →
      ∃ nm, st.patternToIntent.get?
          (extractBest ((List.range tc.length).map (cosSimC tc (normalizeText u)))).1
          = some nm ∧
        find_intent reSearch fuzzScore cosSimC st u ft tt
          = .ok (its.find? (isNamed nm)) ∧
        (its.find? (isNamed nm)).isSome = true) ∧
    ((extractBest ((List.range tc.length).map (cosSimC tc (normalizeText u)))).2 < tt →
      find_intent reSearch fuzzScore cosSimC st u ft tt = .ok Option.none) := by
  obtain ⟨its2, pairs, hi2, hg, hcl, hc, hpti, htf⟩ := load_ok_spec reValid st0 raw st hload
  rw [hits] at hi2
  injection hi2 with hi2
  subst hi2
  have hgood := all_goodIntent_of_mem hg
  rw [htf] at htc
  by_cases hemp : (pairs.map Prod.fst).isEmpty = true
  · rw [if_pos hemp] at htc
    exact absurd htc (by simp)
  · rw [if_neg hemp] at htc
    injection htc with htc
    have htcne : tc ≠ [] := by
      rw [← htc]
      simpa [List.isEmpty_iff] using hemp
    have htclen : tc.length = st.patternToIntent.length := by
      rw [hpti, ← htc]
      simp
    have hsimsne : (List.range tc.length).map (cosSimC tc (normalizeText u)) ≠ [] := by
      simp only [ne_eq, List.map_eq_nil_iff, List.range_eq_nil]
      intro hlen0
      exact htcne (List.length_eq_zero.mp hlen0)
    have hblt : (extractBest ((List.range tc.length).map (cosSimC tc (normalizeText u)))).1
        < tc.length := by
      have h := extractBest_lt_length _ hsimsne
      simpa using h
    have hnm : ∃ nm, st.patternToIntent.get?
        (extractBest ((List.range tc.length).map (cosSimC tc (normalizeText u)))).1
        = some nm := by
      cases hq : st.patternToIntent.get?
          (extractBest ((List.range tc.length).map (cosSimC tc (normalizeText u)))).1 with
      | some nm => exact ⟨nm, rfl⟩
      | none =>
        rw [List.get?_eq_none] at hq
        omega
    obtain ⟨nm, hnmq⟩ := hnm
    have htcorig : st.tfidfCorpus = some tc := by
      rw [htf, if_neg hemp, htc]
    refine ⟨fun j hj => extractBest_earlier_lt _ j hj,
            fun x hx => extractBest_le _ x hx, ?_, ?_⟩
    · intro hth
      have hmemnm : nm ∈ st.patternToIntent := List.get?_mem hnmq
      rw [hpti] at hmemnm
      obtain ⟨pr, hpr, hpr2⟩ := List.mem_map.mp hmemnm
      obtain ⟨jt, hjt, hown⟩ := corpus_owner_mem its pairs hcl pr hpr
      have hnamed : isNamed nm jt = true := by
        rw [← hpr2]
        simp only [ownsPhrase, Bool.and_eq_true] at hown
        exact hown.1
      have hfind : (its.find? (isNamed nm)).isSome = true :=
        List.find?_isSome.mpr ⟨jt, hjt, hnamed⟩
      obtain ⟨w, hw⟩ := Option.isSome_iff_exists.mp hfind
      have h4 : stage4 cosSimC st its (normalizeText u) tt = .ok (some w) := by
        unfold stage4
        rw [htcorig]
        dsimp only
        rw [if_neg (by simpa [List.isEmpty_iff] using htcne)]
        rw [if_pos hth]
        unfold pyIndex
        rw [hnmq]
        dsimp only
        rw [resolveIntent_eq_find nm its hgood, hw]
      refine ⟨nm, hnmq, ?_, hfind⟩
      rw [find_intent_of_stage123_none reSearch fuzzScore cosSimC st u ft tt its
          htext hits h1 h2 h3, h4, hw]
    · intro hth
      have h4 : stage4 cosSimC st its (normalizeText u) tt = .ok Option.none := by
        unfold stage4
        rw [htcorig]
        dsimp only
        rw [if_neg (by simpa [List.isEmpty_iff] using htcne)]
        rw [if_neg (not_le.mpr hth)]
      rw [find_intent_of_stage123_none reSearch fuzzScore cosSimC st u ft tt its
          htext hits h1 h2 h3, h4]

theorem c7_witness :
    ∃ nm, ([PyVal.str "greet"] : List PyVal).get?
        (extractBest ((List.range (["hello"] : List String).length).map
          ((fun _ _ _ => (1 / 2 : ℚ)) (["hello"] : List String)
            (normalizeText (some "zzz"))))).1
        = some nm ∧
      find_intent (fun _ _ => false) (fun _ _ => (0 : ℚ)) (fun _ _ _ => (1 / 2 : ℚ))
          (St.mk (.list [.dict [("intent", .str "greet"),
              ("patterns", .list [.str "hello"]), ("response", .str "Hi"),
              ("_regex", PyVal.none)]]) [.str "greet"] ["hello"] (some ["hello"]))
          (some "zzz") 70 (35 / 100)
        = .ok (([PyVal.dict [("intent", .str "greet"),
            ("patterns", .list [.str "hello"]), ("response", .str "Hi"),
            ("_regex", PyVal.none)]]).find? (isNamed nm)) ∧
      (([PyVal.dict [("intent", .str "greet"),
          ("patterns", .list [.str "hello"]), ("response", .str "Hi"),
          ("_regex", PyVal.none)]]).find? (isNamed nm)).isSome = true :=
  (c7_vector_stage (fun _ => true) (fun _ _ => false) (fun _ _ => (0 : ℚ))
    (fun _ _ _ => (1 / 2 : ℚ)) (St.mk (.list []) [] [] Option.none)
    (.list [.dict [("intent", .str "greet"), ("patterns", .list [.str "hello"]),
      ("response", .str "Hi")]])
    (St.mk (.list [.dict [("intent", .str "greet"),
        ("patterns", .list [.str "hello"]), ("response", .str "Hi"),
        ("_regex", PyVal.none)]]) [.str "greet"] ["hello"] (some ["hello"]))
    (some "zzz") 70 (35 / 100)
    [.dict [("intent", .str "greet"), ("patterns", .list [.str "hello"]),
      ("response", .str "Hi"), ("_regex", PyVal.none)]]
    ["hello"]
    rfl rfl rfl rfl rfl rfl rfl).2.2.1 (by norm_num [List.range_succ, extractBest])

/-- C1 (code-bug evidence): a reload whose definition source parses to the
structurally invalid top-level value `42` surfaces `TypeError`, but only
after the global `intents` has been overwritten: the resulting state pairs
the new invalid `intents` with the old corpus and mapping (partially built
state), and the query "hi", served by the previous index, now raises
`TypeError` instead of matching — the previously active index is neither
unchanged nor servable. -/
theorem c1_reload_partial_state :
    load_intents (fun _ => true) (St.mk (.list []) [] [] Option.none)
        (.list [.dict [("intent", .str "greet"), ("patterns", .list [.str "hi"]),
          ("response", .str "Hello")]])
      = (St.mk (.list [.dict [("intent", .str "greet"),
            ("patterns", .list [.str "hi"]), ("response", .str "Hello"),
            ("_regex", PyVal.none)]]) [.str "greet"] ["hi"] (some ["hi"]),
         Option.none) ∧
    find_intent (fun _ _ => false) (fun _ _ => (0 : ℚ)) (fun _ _ _ => (0 : ℚ))
        (St.mk (.list [.dict [("intent", .str "greet"),
            ("patterns", .list [.str "hi"]), ("response", .str "Hello"),
            ("_regex", PyVal.none)]]) [.str "greet"] ["hi"] (some ["hi"]))
        (some "hi") 70 (35 / 100)
      = .ok (some (.dict [("intent", .str "greet"), ("patterns", .list [.str "hi"]),
          ("response", .str "Hello"), ("_regex", PyVal.none)])) ∧
    load_intents (fun _ => true)
        (St.mk (.list [.dict [("intent", .str "greet"),
            ("patterns", .list [.str "hi"]), ("response", .str "Hello"),
            ("_regex", PyVal.none)]]) [.str "greet"] ["hi"] (some ["hi"]))
        (.int 42)
      = (St.mk (.int 42) [.str "greet"] ["hi"] (some ["hi"]), some .typeError) ∧
    find_intent (fun _ _ => false) (fun _ _ => (0 : ℚ)) (fun _ _ _ => (0 : ℚ))
        (St.mk (.int 42) [.str "greet"] ["hi"] (some ["hi"]))
        (some "hi") 70 (35 / 100)
      = .error .typeError :=
  ⟨rfl, rfl, rfl, rfl⟩

/-- C3 counterexample: with a single intent whose pattern is "Hi", the
stage-3 fuzzy list is `["Hi"]` (original casing, rebuilt at query time from
`it.get("patterns")` without lower-casing) while the corpus the similarity
model was trained on is `["hi"]`; the two lists are not equal
element-for-element. -/
theorem c3_counterexample :
    load_intents (fun _ => true) (St.mk (.list []) [] [] Option.none)
        (.list [.dict [("intent", .str "greet"), ("patterns", .list [.str "Hi"]),
          ("response", .str "Hello")]])
      = (St.mk (.list [.dict [("intent", .str "greet"),
            ("patterns", .list [.str "Hi"]), ("response", .str "Hello"),
            ("_regex", PyVal.none)]]) [.str "greet"] ["hi"] (some ["hi"]),
         Option.none) ∧
    allPatternsOf [.dict [("intent", .str "greet"), ("patterns", .list [.str "Hi"]),
        ("response", .str "Hello"), ("_regex", PyVal.none)]] = .ok ["Hi"] ∧
    (["Hi"] : List String) ≠ ["hi"] :=
  ⟨rfl, rfl, by decide⟩

/-- C3 (amended): on every successfully built index, the fuzzy stage
scores against the flattened pattern list in its original casing;
lower-casing that list element-for-element yields exactly the corpus, the
lists have equal length (index-aligned with the owner mapping), and the
similarity model — when present — was trained on exactly that corpus. -/
theorem c3_fuzzy_corpus_amended (reValid : String → Bool) (st0 : St) (raw : PyVal)
    (st : St) (its : List PyVal)
    (hload : load_intents reValid st0 raw = (st, Option.none))
    (hits : pyIter st.intents = .ok its) :
    ∃ aps, allPatternsOf its = .ok aps ∧
      aps.map pyLower = st.corpus ∧
      aps.length = st.patternToIntent.length ∧
      (st.tfidfCorpus = Option.none ∨ st.tfidfCorpus = some st.corpus) := by
  obtain ⟨its2, pairs, hi2, hg, hcl, hc, hpti, htf⟩ := load_ok_spec reValid st0 raw st hload
  rw [hits] at hi2
  injection hi2 with hi2
  subst hi2
  obtain ⟨aps, hap, hal, -⟩ := allPatternsOf_align its hg
  have hp1 : (corpusPhaseList its).1 = pairs := by rw [hcl]
  rw [hp1] at hal
  refine ⟨aps, hap, by rw [hal, hc], ?_, ?_⟩
  · rw [hpti]
    have h := congrArg List.length hal
    simpa using h
  · rw [htf, hc]
    by_cases hemp : (pairs.map Prod.fst).isEmpty = true
    · rw [if_pos hemp]
      exact Or.inl rfl
    · rw [if_neg hemp]
      exact Or.inr rfl

theorem c3_witness :
    ∃ aps, allPatternsOf [PyVal.dict [("intent", .str "greet"),
        ("patterns", .list [.str "Hi"]), ("response", .str "Hello"),
        ("_regex", PyVal.none)]] = .ok aps ∧
      aps.map pyLower = ["hi"] ∧
      aps.length = ([PyVal.str "greet"] : List PyVal).length ∧
      ((some ["hi"] : Option (List String)) = Option.none ∨
       (some ["hi"] : Option (List String)) = some ["hi"]) :=
  c3_fuzzy_corpus_amended (fun _ => true) (St.mk (.list []) [] [] Option.none)
    (.list [.dict [("intent", .str "greet"), ("patterns", .list [.str "Hi"]),
      ("response", .str "Hello")]])
    (St.mk (.list [.dict [("intent", .str "greet"),
        ("patterns", .list [.str "Hi"]), ("response", .str "Hello"),
        ("_regex", PyVal.none)]]) [.str "greet"] ["hi"] (some ["hi"]))
    [.dict [("intent", .str "greet"), ("patterns", .list [.str "Hi"]),
      ("response", .str "Hello"), ("_regex", PyVal.none)]]
    rfl rfl

/-- C4 counterexample: a rule list containing the non-string value `5`
raises `TypeError` inside `_compile_regex` (which catches only `re.error`),
so the rule is not silently omitted: compilation raises and the whole index
build aborts with the error. -/
theorem c4_counterexample :
    processIntent (fun _ => true)
        (.dict [("intent", .str "a"), ("patterns", .list []),
          ("regex", .list [.int 5])])
      = .error .typeError ∧
    load_intents (fun _ => true) (St.mk (.list []) [] [] Option.none)
        (.list [.dict [("intent", .str "a"), ("patterns", .list []),
          ("regex", .list [.int 5])]])
      = (St.mk (.list [.dict [("intent", .str "a"), ("patterns", .list []),
          ("regex", .list [.int 5])]]) [] [] Option.none, some .typeError) :=
  ⟨rfl, rfl⟩

theorem compileRegexList_strs (reValid : String → Bool) : ∀ ss : List String,
    compileRegexList reValid (ss.map PyVal.str)
      = .ok ((ss.filter reValid).map PyVal.rx)
  | [] => rfl
  | s :: tl => by
    simp only [List.map_cons, compileRegexList, compileRegexItem]
    rw [compileRegexList_strs reValid tl]
    dsimp only
    unfold compile_regex
    by_cases h : reValid s
    · rw [if_pos h]
      simp [List.filter_cons, h]
    · rw [if_neg h]
      simp [List.filter_cons, h]

/-- C4 (amended): compiling a rule spec that is absent, a single string, or
a list of strings never raises: the absent case stores no matcher, a
single string stores its compilation result (`None` when invalid), and a
list of strings keeps exactly the successfully compiling rules in their
original order, silently omitting the rest.  (A list containing a
non-string value, by contrast, raises `TypeError` — see the
counterexample.) -/
theorem c4_rule_compile_amended (reValid : String → Bool)
    (kvs : List (String × PyVal)) :
    (objGetD kvs "regex" PyVal.none = PyVal.none →
      processIntent reValid (.dict kvs)
        = .ok (.dict (objSet kvs "_regex" PyVal.none))) ∧
    (∀ s, objGetD kvs "regex" PyVal.none = .str s →
      processIntent reValid (.dict kvs)
        = .ok (.dict (objSet kvs "_regex" (compile_regex reValid s)))) ∧
    (∀ ss : List String, objGetD kvs "regex" PyVal.none = .list (ss.map PyVal.str) →
      processIntent reValid (.dict kvs)
        = .ok (.dict (objSet kvs "_regex_list"
            (.list ((ss.filter reValid).map PyVal.rx))))) := by
  refine ⟨?_, ?_, ?_⟩
  · intro h
    simp only [processIntent]
    rw [h]
  · intro s h
    simp only [processIntent]
    rw [h]
  · intro ss h
    simp only [processIntent]
    rw [h]
    dsimp only
    rw [compileRegexList_strs reValid ss]

theorem c4_witness :
    processIntent (fun s => !(s == "("))
        (.dict [("regex", .list [.str "a", .str "(", .str "b"])])
      = .ok (.dict [("regex", .list [.str "a", .str "(", .str "b"]),
          ("_regex_list", .list [.rx "a", .rx "b"])]) ∧
    processIntent (fun s => !(s == "(")) (.dict [("intent", .str "x")])
      = .ok (.dict [("intent", .str "x"), ("_regex", PyVal.none)]) :=
  ⟨(c4_rule_compile_amended (fun s => !(s == "("))
      [("regex", .list [.str "a", .str "(", .str "b"])]).2.2
      ["a", "(", "b"] rfl,
   (c4_rule_compile_amended (fun s => !(s == "("))
      [("intent", .str "x")]).1 rfl⟩

/-- C5 counterexample: intent "a" has pattern "hi" and intent "b" has
pattern "high"; submitting intent "b"'s exact pattern text as "HIGH"
returns intent "a" via stage 1 (its pattern "hi" is contained in the
normalized text "high"), not the owning intent "b". -/
theorem c5_counterexample :
    load_intents (fun _ => true) (St.mk (.list []) [] [] Option.none)
        (.list [.dict [("intent", .str "a"), ("patterns", .list [.str "hi"]),
            ("response", .str "ra")],
          .dict [("intent", .str "b"), ("patterns", .list [.str "high"]),
            ("response", .str "rb")]])
      = (St.mk (.list [.dict [("intent", .str "a"),
            ("patterns", .list [.str "hi"]), ("response", .str "ra"),
            ("_regex", PyVal.none)],
          .dict [("intent", .str "b"), ("patterns", .list [.str "high"]),
            ("response", .str "rb"), ("_regex", PyVal.none)]])
          [.str "a", .str "b"] ["hi", "high"] (some ["hi", "high"]),
         Option.none) ∧
    find_intent (fun _ _ => false) (fun _ _ => (0 : ℚ)) (fun _ _ _ => (0 : ℚ))
        (St.mk (.list [.dict [("intent", .str "a"),
            ("patterns", .list [.str "hi"]), ("response", .str "ra"),
            ("_regex", PyVal.none)],
          .dict [("intent", .str "b"), ("patterns", .list [.str "high"]),
            ("response", .str "rb"), ("_regex", PyVal.none)]])
          [.str "a", .str "b"] ["hi", "high"] (some ["hi", "high"]))
        (some "HIGH") 70 (35 / 100)
      = .ok (some (.dict [("intent", .str "a"), ("patterns", .list [.str "hi"]),
          ("response", .str "ra"), ("_regex", PyVal.none)])) ∧
    isNamed (.str "b") (.dict [("intent", .str "a"),
        ("patterns", .list [.str "hi"]), ("response", .str "ra"),
        ("_regex", PyVal.none)]) = false :=
  ⟨rfl, rfl, rfl⟩

/-- C5 (amended): for every stored intent and every string pattern `p` of
that intent whose lower-cased form is non-empty and free of surrounding
whitespace, submitting `p` under any casing yields a stage-1 match: the
cascade returns the first intent in store order one of whose patterns is
contained in the normalized input (the owning intent itself whenever no
earlier intent's pattern is contained), independent of the fuzzy and
semantic thresholds and of the rule/fuzzy/vector functions. -/
theorem c5_exact_pattern_amended (reValid : String → Bool)
    (reSearch : String → String → Bool) (fuzzScore : String → String → ℚ)
    (cosSimC : List String → String → Nat → ℚ)
    (st0 : St) (raw : PyVal) (st : St) (ut : String) (ft tt : ℚ)
    (its : List PyVal) (kvs : List (String × PyVal)) (ps : List PyVal) (p : String)
    (hload : load_intents reValid st0 raw = (st, Option.none))
    (hits : pyIter st.intents = .ok its)
    (hmem : PyVal.dict kvs ∈ its)
    (hpi : pyIter (objGetD kvs "patterns" (.list [])) = .ok ps)
    (hp : PyVal.str p ∈ ps)
    (hcase : pyLower ut = pyLower p)
    (hws : pyStrip (pyLower p) = pyLower p)
    (hne : (pyLower p).data ≠ []) :
    find_intent reSearch fuzzScore cosSimC st (some ut) ft tt
      = .ok (its.find? (isLitMatch (normalizeText (some ut)))) ∧
    (its.find? (isLitMatch (normalizeText (some ut)))).isSome = true := by
  have htext0 : normalizeText (some ut) = pyLower p := by
    show pyStrip (pyLower ut) = pyLower p
    rw [hcase, hws]
  have htext : (normalizeText (some ut)).data.isEmpty = false := by
    rw [htext0]
    exact Bool.eq_false_iff.mpr (fun hcontr => hne (List.isEmpty_iff.mp hcontr))
  have hlit : isLitMatch (normalizeText (some ut)) (.dict kvs) = true := by
    simp only [isLitMatch]
    rw [hpi]
    dsimp only
    rw [List.any_eq_true]
    refine ⟨.str p, hp, ?_⟩
    show pyIn (pyLower p) (normalizeText (some ut)) = true
    rw [htext0]
    exact containsSub_self _
  obtain ⟨its2, pairs, hi2, hg, -, -, -, -⟩ := load_ok_spec reValid st0 raw st hload
  rw [hits] at hi2
  injection hi2 with hi2
  subst hi2
  have hgood := all_goodIntent_of_mem hg
  have hfind : (its.find? (isLitMatch (normalizeText (some ut)))).isSome = true :=
    List.find?_isSome.mpr ⟨.dict kvs, hmem, hlit⟩
  obtain ⟨w, hw⟩ := Option.isSome_iff_exists.mp hfind
  have h1 : stage1 (normalizeText (some ut)) its = .ok (some w) := by
    rw [stage1_eq_find _ _ hgood, hw]
  refine ⟨?_, hfind⟩
  rw [find_intent_of_stage1_some reSearch fuzzScore cosSimC st (some ut) ft tt its w
      htext hits h1, hw]

theorem c5_witness :
    find_intent (fun _ _ => false) (fun _ _ => (0 : ℚ)) (fun _ _ _ => (0 : ℚ))
        (St.mk (.list [.dict [("intent", .str "b"),
            ("patterns", .list [.str "high"]), ("response", .str "rb"),
            ("_regex", PyVal.none)]]) [.str "b"] ["high"] (some ["high"]))
        (some "HIGH") 70 (35 / 100)
      = .ok (([PyVal.dict [("intent", .str "b"),
          ("patterns", .list [.str "high"]), ("response", .str "rb"),
          ("_regex", PyVal.none)]]).find?
            (isLitMatch (normalizeText (some "HIGH")))) ∧
    (([PyVal.dict [("intent", .str "b"),
        ("patterns", .list [.str "high"]), ("response", .str "rb"),
        ("_regex", PyVal.none)]]).find?
          (isLitMatch (normalizeText (some "HIGH")))).isSome = true :=
  c5_exact_pattern_amended (fun _ => true) (fun _ _ => false) (fun _ _ => (0 : ℚ))
    (fun _ _ _ => (0 : ℚ)) (St.mk (.list []) [] [] Option.none)
    (.list [.dict [("intent", .str "b"), ("patterns", .list [.str "high"]),
      ("response", .str "rb")]])
    (St.mk (.list [.dict [("intent", .str "b"),
        ("patterns", .list [.str "high"]), ("response", .str "rb"),
        ("_regex", PyVal.none)]]) [.str "b"] ["high"] (some ["high"]))
    "HIGH" 70 (35 / 100)
    [.dict [("intent", .str "b"), ("patterns", .list [.str "high"]),
      ("response", .str "rb"), ("_regex", PyVal.none)]]
    [("intent", .str "b"), ("patterns", .list [.str "high"]),
      ("response", .str "rb"), ("_regex", PyVal.none)]
    [.str "high"] "high"
    rfl rfl (List.mem_singleton.mpr rfl) rfl (List.mem_singleton.mpr rfl)
    rfl rfl (by decide)

end KampBot
